import Mathlib

/-!
Verification of the syncengine intention-search core against its source.

The development shallowly embeds the JavaScript modules of the repository:

* `intention-search-engine.js` — cosine similarity, haversine-based geo
  scoring, golden-ratio card sizing and the hybrid semantic+geo ranking
  pipeline (`searchIntentions`).
* `database.js` (the OrbitDB variant with magic-link invitations) — the
  IndexedDB intention cache, `loadIntentions`, `createIntention`,
  `updateIntention` and the join orchestrator `openIntentionsDatabase`.
* the `CreateIntentionForm` component's submit-time validation.

Modelling conventions: JavaScript numbers are idealised as exact rationals
(`ℚ`); timestamps (`Date.now()`) are naturals passed in explicitly; the
external embedding capability (`generateEmbedding`, a Transformers.js
model) is a parameter `gen : String → List ℚ`; the irrational haversine
distance is a parameter `hav`; network operations (OrbitDB `open`, `put`,
`all`, libp2p dialing and the `Promise.race` deadline idiom) are modelled
by their outcomes, passed in as explicit parameters, so every control-flow
branch of the source is represented.  JavaScript string truthiness (empty
string is falsy, `undefined` is falsy) is modelled by `Option String`
together with the `truthyStr` predicate.
-/

namespace SyncEngine

/-- An intention record, mirroring the object literal built in
`createIntention` (database.js): identity, content, lifecycle and the
derived embedding fields.  `geo` is an optional latitude/longitude pair;
`embedding`/`embeddedAt` are absent until `embedIntention` runs. -/
structure Intention where
  intentionId : String
  title : String
  description : String
  location : String
  geo : Option (ℚ × ℚ)
  status : String
  createdBy : String
  createdAt : ℕ
  updatedAt : ℕ
  tags : List String
  category : String
  embedding : Option (List ℚ) := none
  embeddedAt : Option ℕ := none
  completedAt : Option ℕ := none
  archivedAt : Option ℕ := none
  deriving Repr, DecidableEq

/-! ### intention-search-engine.js -/

/-- Accumulates the dot product and the two squared norms exactly as the
single loop of `cosineSimilarity` does (`dotProduct += a[i]*b[i]`,
`normA += a[i]^2`, `normB += b[i]^2`). -/
def dotNorms : List ℚ → List ℚ → ℚ × ℚ × ℚ
  | x :: xs, y :: ys =>
      let p := dotNorms xs ys
      (p.1 + x * y, p.2.1 + x * x, p.2.2 + y * y)
  | _, _ => (0, 0, 0)

/-- The value of a JavaScript floating-point division
`dot / (Math.sqrt(normA) * Math.sqrt(normB))`, kept symbolic: the
denominator vanishes exactly when one of the squared norms is zero, in
which case IEEE-754 yields NaN (for `0/0`) or a signed infinity; otherwise
the value is the finite quotient, represented by its three exact
components. -/
inductive CosValue where
  | nan
  | posInf
  | negInf
  | fin (dot normA normB : ℚ)
  deriving Repr, DecidableEq

/-- Embedding of `cosineSimilarity(vecA, vecB)`: throws on a length
mismatch, otherwise divides the dot product by the product of the two
norms with no zero-norm guard — the division's IEEE outcome is recorded
by `CosValue`. -/
def cosineSimilarity (vecA vecB : List ℚ) : Except String CosValue :=
  if vecA.length ≠ vecB.length then
    .error "Vectors must have same length"
  else
    let p := dotNorms vecA vecB
    .ok (if p.2.1 = 0 ∨ p.2.2 = 0 then
          (if p.1 = 0 then .nan else if 0 < p.1 then .posInf else .negInf)
         else .fin p.1 p.2.1 p.2.2)

/-- Embedding of `geoDistance(geo1, geo2)`: `Infinity` (here `none`) when
either point is absent, otherwise the haversine great-circle distance,
supplied as the abstract parameter `hav` (its trigonometry is not
rational-valued). -/
def geoDistance (hav : (ℚ × ℚ) → (ℚ × ℚ) → ℚ) :
    Option (ℚ × ℚ) → Option (ℚ × ℚ) → Option ℚ
  | some p1, some p2 => some (hav p1 p2)
  | _, _ => none

/-- Embedding of `normalizeGeoScore(distance, maxDistance = 100)`:
`0` for an infinite distance, else `max(0, 1 - distance / maxDistance)`. -/
def normalizeGeoScore (distance : Option ℚ) (maxDistance : ℚ := 100) : ℚ :=
  match distance with
  | none => 0
  | some d => max 0 (1 - d / maxDistance)

/-- The scale factor `0.5 + score * 0.5` computed inside
`calculateCardDimensions`. -/
def displayScale (score : ℚ) : ℚ := 1/2 + score * (1/2)

/-- Card dimensions as integers (pixel values). -/
structure Dimensions where
  width : ℤ
  height : ℤ
  deriving Repr, DecidableEq

/-- Embedding of `calculateCardDimensions(score, baseWidth = 320)`:
golden-ratio sizing with `PHI = 1.618` and JavaScript `Math.round`
(round half towards positive infinity, which is Mathlib's `round`). -/
def calculateCardDimensions (score : ℚ) (baseWidth : ℚ := 320) : Dimensions :=
  let scaleFactor := displayScale score
  let width := round (baseWidth * scaleFactor)
  let height := round ((width : ℚ) / (1618/1000))
  ⟨width, height⟩

/-! ### database.js -/

/-- Executable model of the JavaScript builtin `String.prototype.trim`:
strip leading and trailing whitespace.  (Defined structurally over the
character list so that concrete instances evaluate; the core
`String.trim` is byte-position based and does not reduce in the kernel.) -/
def jsTrim (s : String) : String :=
  ⟨((s.data.dropWhile Char.isWhitespace).reverse.dropWhile Char.isWhitespace).reverse⟩

/-- JavaScript truthiness of an optional string field: `undefined` and the
empty string are falsy, every other string is truthy. -/
def truthyStr : Option String → Bool
  | some s => s ≠ ""
  | none => false

/-- The descending-`createdAt` comparator `(a, b) => b.createdAt - a.createdAt`
used by both `loadIntentions` and `loadIntentionsFromCache`; the sort is
modelled by `mergeSort` with the corresponding boolean relation. -/
def sortByCreatedAtDesc (l : List Intention) : List Intention :=
  l.mergeSort (fun a b => decide (b.createdAt ≤ a.createdAt))

/-- Embedding of `loadIntentionsFromCache()`: reads the whole IndexedDB
object store (its contents are the parameter `cache`, in storage order)
and sorts it newest-first.  The catch-all that returns `[]` when IndexedDB
itself fails is the degenerate instance `cache = []`. -/
def loadIntentionsFromCache (cache : List Intention) : List Intention :=
  sortByCreatedAtDesc cache

/-- A raw OrbitDB document entry as returned by `database.all()`; the
intention is its `value` field. -/
structure Entry where
  value : Intention
  deriving Repr, DecidableEq

/-- Embedding of `loadIntentions(database, isNewDatabase)`.  The OrbitDB
read `database.all()` raced against its 30 s deadline is the parameter
`readResult` (a timeout rejection and any other error are the same
`.error` branch).  Returns the intention list handed back to the caller
together with the cache contents after the call (`saveIntentionsToCache`
replaces the whole snapshot on a successful read; on failure the function
returns `[]` and the cache is left untouched). -/
def loadIntentions (dbPresent : Bool) (readResult : Except String (List Entry))
    (isNewDatabase : Bool) (cache : List Intention) :
    List Intention × List Intention :=
  if !dbPresent then ([], cache)
  else if isNewDatabase then ([], cache)
  else
    match readResult with
    | .ok allIntentions =>
        let intentions := sortByCreatedAtDesc (allIntentions.map (·.value))
        (intentions, intentions)
    | .error _ => ([], cache)

/-- The argument object of `createIntention`; every field of the JavaScript
object literal may be `undefined`, hence the `Option`s. -/
structure IntentionData where
  title : Option String := none
  description : Option String := none
  location : Option String := none
  geo : Option (ℚ × ℚ) := none
  tags : Option (List String) := none
  category : Option String := none
  deriving Repr, DecidableEq

/-- Embedding of `embedIntention(intention)` from the search engine: the
text `title + ' ' + (description || '')` is embedded by the external
capability `gen` and stamped with the current time.  (For a string field,
`description || ''` equals `description` whether or not it is empty.) -/
def embedIntention (gen : String → List ℚ) (now : ℕ) (i : Intention) : Intention :=
  { i with
    embedding := some (gen (i.title ++ " " ++ i.description))
    embeddedAt := some now }

/-- One observable side effect of `createIntention`, in program order:
the embedding computation, the optimistic cache write (with the snapshot
written), and the attempted OrbitDB `put` raced against its 15 s deadline
(with its outcome). -/
inductive Eff where
  | embed
  | cacheWrite (snapshot : List Intention)
  | storePut (ok : Bool)
  deriving Repr, DecidableEq

/-- What a successful `createIntention` call produces: the returned record,
the cache contents afterwards, and the ordered effect trace. -/
structure CreateOutcome where
  record : Intention
  cache : List Intention
  effs : List Eff
  deriving Repr, DecidableEq

/-- The base intention object literal built inside `createIntention`:
time-based id with random suffix, trimmed title, defaulted fields
(JavaScript `||` defaults: an empty-string category is falsy and becomes
`'general'`, while arrays are always truthy). -/
def createdRecord (identityId : String) (intentionData : IntentionData)
    (now : ℕ) (rand : String) : Intention :=
  { intentionId := "int_" ++ toString now ++ "_" ++ rand
    title := jsTrim (intentionData.title.getD "")
    description := (intentionData.description.map (jsTrim ·)).getD ""
    location := intentionData.location.getD ""
    geo := intentionData.geo
    status := "active"
    createdBy := identityId
    createdAt := now
    updatedAt := now
    tags := intentionData.tags.getD []
    category :=
      match intentionData.category with
      | some c => if c = "" then "general" else c
      | none => "general" }

/-- Embedding of `createIntention(database, intentionData, credential)`
from database.js (magic-link variant).  `dbPresent` models the `database`
null check; `now` is `Date.now()`; `rand` the random id suffix; `gen` the
embedding capability; `putOk` whether `database.put` settled within its
15 s deadline.  The record is appended to the cache snapshot before the
OrbitDB write is attempted, and a write failure is caught and logged, so
the call still succeeds. -/
def createIntention (dbPresent : Bool) (identityId : String)
    (intentionData : IntentionData) (cache : List Intention)
    (now : ℕ) (rand : String) (gen : String → List ℚ) (putOk : Bool) :
    Except String CreateOutcome :=
  if !dbPresent then .error "Database is required"
  else if !truthyStr (intentionData.title.map (jsTrim ·)) then
    .error "Intention title is required"
  else
    let intentionWithEmbedding :=
      embedIntention gen now (createdRecord identityId intentionData now rand)
    let currentCache := loadIntentionsFromCache cache
    let newCache := currentCache ++ [intentionWithEmbedding]
    .ok { record := intentionWithEmbedding
          cache := newCache
          effs := [.embed, .cacheWrite newCache, .storePut putOk] }

/-- The patch object of `updateIntention`; a `none` field is absent from
the JavaScript object and the spread `{...existing, ...updates}` leaves
the stored value in place, while a present field overwrites it even when
it is the empty string or the empty list. -/
structure Patch where
  title : Option String := none
  description : Option String := none
  location : Option String := none
  geo : Option (ℚ × ℚ) := none
  status : Option String := none
  tags : Option (List String) := none
  category : Option String := none
  completedAt : Option ℕ := none
  archivedAt : Option ℕ := none
  deriving Repr, DecidableEq

/-- The merge `{...existing, ...updates, updatedAt: Date.now()}`. -/
def applyPatch (i : Intention) (p : Patch) (now : ℕ) : Intention :=
  { i with
    title := p.title.getD i.title
    description := p.description.getD i.description
    location := p.location.getD i.location
    geo := match p.geo with | some g => some g | none => i.geo
    status := p.status.getD i.status
    tags := p.tags.getD i.tags
    category := p.category.getD i.category
    completedAt := match p.completedAt with | some t => some t | none => i.completedAt
    archivedAt := match p.archivedAt with | some t => some t | none => i.archivedAt
    updatedAt := now }

/-- Embedding of `updateIntention(database, intentionId, updates)`.  The
current record is read from the store (`database.get`, here the documents
matching `intentionId` within `store`), the patch merged and `updatedAt`
bumped; the embedding is regenerated exactly when `updates.title ||
updates.description` is truthy.  `putResult` is the outcome of
`database.put`, whose failure propagates (no deadline race here). -/
def updateIntention (store : List Intention) (intentionId : String)
    (updates : Patch) (now : ℕ) (gen : String → List ℚ)
    (putResult : Except String Unit) : Except String Intention :=
  if intentionId = "" then .error "Database and intentionId are required"
  else
    match store.filter (fun i => i.intentionId = intentionId) with
    | [] => .error ("Intention " ++ intentionId ++ " not found")
    | existing0 :: _ =>
      let updatedIntention := applyPatch existing0 updates now
      if truthyStr updates.title || truthyStr updates.description then
        let reembedded := embedIntention gen now updatedIntention
        putResult.map fun _ => reembedded
      else
        putResult.map fun _ => updatedIntention

/-! ### Join orchestrator (`openIntentionsDatabase`, database.js) -/

/-- Outcomes of the network operations the join orchestrator races against
its deadlines: whether at least one direct peer dial succeeds within 10 s,
whether `orbitdb.open` succeeds on the invitation address (30 s/90 s), on
the remembered address (30 s), and on a newly created store (15 s), and
the address the new store receives. -/
structure JoinEnv where
  dialOk : Bool
  openUrl : Bool
  openStored : Bool
  openNew : Bool
  newAddress : String
  deriving Repr, DecidableEq

/-- A network attempt made by the orchestrator, in program order. -/
inductive Attempt where
  | dial
  | openUrl
  | openStored
  | createNew
  deriving Repr, DecidableEq

/-- The fatal errors `openIntentionsDatabase` can throw:
`peerUnreachable` is the "Failed to connect to peer..." message raised
when the magic link carried peer addresses, `discoveryTimeout` the
"Failed to discover database peers after 90 seconds..." message raised
otherwise, and `createTimeout` the uncaught 15 s rejection when creating
a brand-new store. -/
inductive JoinError where
  | peerUnreachable
  | discoveryTimeout
  | createTimeout
  deriving Repr, DecidableEq

/-- The session handed back on success: its address and the
`_isNewDatabase` / `_isJoinedViaInvitation` flags attached to it. -/
structure DbInfo where
  address : String
  isNewDatabase : Bool
  isJoinedViaInvitation : Bool
  deriving Repr, DecidableEq

/-- Everything observable about one orchestrator run: the ordered network
attempts, the final `syncengine-database-address` in localStorage, whether
the `db`/`peers` URL parameters were cleared, and the thrown error or the
opened session. -/
structure JoinResult where
  attempts : List Attempt
  remembered : Option String
  urlCleared : Bool
  outcome : Except JoinError DbInfo
  deriving Repr

/-- JavaScript truthiness of the `peers` URL parameter inside the catch
branch: `peerMultiaddrs && peerMultiaddrs.length > 0`. -/
def peersTruthy : Option (List String) → Bool
  | some ps => !ps.isEmpty
  | none => false

/-- Step 3 of the orchestrator: create a brand-new store under a 15 s
deadline (its rejection is not caught), persisting its address on
success.  `remembered0` is the localStorage state on entry, `prior` the
attempts already made. -/
def createNewDatabase (env : JoinEnv) (remembered0 : Option String)
    (prior : List Attempt) : JoinResult :=
  if env.openNew then
    { attempts := prior ++ [.createNew]
      remembered := some env.newAddress
      urlCleared := false
      outcome := .ok { address := env.newAddress
                       isNewDatabase := true
                       isJoinedViaInvitation := false } }
  else
    { attempts := prior ++ [.createNew]
      remembered := remembered0
      urlCleared := false
      outcome := .error .createTimeout }

/-- Steps 2–3 of the orchestrator: try the remembered address under a 30 s
deadline; on failure forget it (`localStorage.removeItem`) and fall
through to creating a new store. -/
def openStoredOrCreate (env : JoinEnv) (storedAddress : Option String) :
    JoinResult :=
  match storedAddress with
  | some s =>
      if env.openStored then
        { attempts := [.openStored]
          remembered := some s
          urlCleared := false
          outcome := .ok { address := s
                           isNewDatabase := false
                           isJoinedViaInvitation := false } }
      else
        createNewDatabase env none [.openStored]
  | none => createNewDatabase env none []

/-- Embedding of `openIntentionsDatabase(orbitdb, identity, identities,
libp2p)`.  `urlAddress`/`peerMultiaddrs` are the magic-link parameters,
`storedAddress` the remembered localStorage address.  With an invitation
present: peer hints are dialed first when libp2p is available
(`directPeerConnected` selects the 30 s instead of the 90 s open
deadline); on a successful open the invitation address is persisted and
the URL parameters cleared; on failure the URL parameters are cleared and
a context-specific error is thrown — peer-unreachable when peer hints
were present, discovery-timeout otherwise — without ever touching the
remembered address.  Without an invitation, the remembered address and
then store creation are tried in order. -/
def openIntentionsDatabase (env : JoinEnv) (urlAddress : Option String)
    (peerMultiaddrs : Option (List String)) (storedAddress : Option String)
    (libp2pAvailable : Bool) : JoinResult :=
  match urlAddress with
  | some u =>
      let tryDial := peersTruthy peerMultiaddrs && libp2pAvailable
      let _directPeerConnected := tryDial && env.dialOk
      let dialAttempts := if tryDial then [Attempt.dial] else []
      if env.openUrl then
        { attempts := dialAttempts ++ [.openUrl]
          remembered := some u
          urlCleared := true
          outcome := .ok { address := u
                           isNewDatabase := false
                           isJoinedViaInvitation := true } }
      else
        { attempts := dialAttempts ++ [.openUrl]
          remembered := storedAddress
          urlCleared := true
          outcome := .error (if peersTruthy peerMultiaddrs then .peerUnreachable
                             else .discoveryTimeout) }
  | none => openStoredOrCreate env storedAddress

/-! ### CreateIntentionForm (submit-time validation) -/

/-- The tag preprocessing of the form submit handler:
`tags.split(',').map(t => t.trim()).filter(t => t.length > 0)`. -/
def splitTags (tags : String) : List String :=
  ((tags.data.splitOn ',').map fun cs => jsTrim (String.mk cs)).filter
    (fun t => t ≠ "")

/-- Embedding of the form's `handleSubmit` validation: title required and
non-empty after trimming, title at most 200 characters, description at
most 2000 characters; only then is the `create` event dispatched with the
trimmed fields.  (String length is idealised as the character count.) -/
def handleSubmit (title description location category tags : String) :
    Except String IntentionData :=
  if jsTrim title = "" then .error "title required"
  else if 200 < title.length then .error "title too long (max 200 chars)"
  else if 2000 < description.length then
    .error "description too long (max 2000 chars)"
  else
    .ok { title := some (jsTrim title)
          description := some (jsTrim description)
          location := some (jsTrim location)
          category := some category
          tags := some (splitTags tags)
          geo := none }

/-! ### searchIntentions (intention-search-engine.js) -/

/-- The options object of `searchIntentions`, with the source defaults. -/
structure SearchOptions where
  userLocation : Option (ℚ × ℚ) := none
  semanticWeight : ℚ := 7/10
  geoWeight : ℚ := 3/10
  minScore : ℚ := 1/10
  maxResults : ℕ := 50
  deriving Repr

/-- The `score` object attached to each ranked result. -/
structure Score where
  combined : ℚ
  semantic : ℚ
  geo : ℚ
  deriving Repr, DecidableEq

/-- One search result: the spread intention plus scores, card dimensions
and the rounded match percentage. -/
structure RankedResult where
  intention : Intention
  score : Score
  dimensions : Dimensions
  matchPercentage : ℤ
  deriving Repr, DecidableEq

/-- The body of the `.map` callback in `searchIntentions`: `null` (here
`none`) for an intention lacking an embedding (logged, not an error);
otherwise the semantic score from the similarity function `sem` — the
abstraction of `cosineSimilarity(queryEmbedding, intention.embedding)`,
which may throw — the geo score when both the caller location and the
item geo are present, and the combined score
`semantic*semanticWeight + geo*geoWeight` under the same condition, else
the bare semantic score. -/
def scoreIntention (sem : List ℚ → List ℚ → Except String ℚ)
    (hav : (ℚ × ℚ) → (ℚ × ℚ) → ℚ) (queryEmbedding : List ℚ)
    (opts : SearchOptions) (intention : Intention) :
    Except String (Option RankedResult) :=
  match intention.embedding with
  | none => .ok none
  | some emb =>
      (sem queryEmbedding emb).bind fun semanticScore =>
        let geoScore : ℚ :=
          match opts.userLocation, intention.geo with
          | some loc, some g =>
              normalizeGeoScore (geoDistance hav (some loc) (some g)) 100
          | _, _ => 0
        let combinedScore :=
          match opts.userLocation, intention.geo with
          | some _, some _ =>
              semanticScore * opts.semanticWeight + geoScore * opts.geoWeight
          | _, _ => semanticScore
        .ok (some { intention := intention
                    score := { combined := combinedScore
                               semantic := semanticScore
                               geo := geoScore }
                    dimensions := calculateCardDimensions combinedScore 320
                    matchPercentage := round (combinedScore * 100) })

/-- `intentions.map(...)` with a possibly-throwing callback: JavaScript
aborts the whole map at the first throw, which is the `Except` bind. -/
def scoreAll (sem : List ℚ → List ℚ → Except String ℚ)
    (hav : (ℚ × ℚ) → (ℚ × ℚ) → ℚ) (queryEmbedding : List ℚ)
    (opts : SearchOptions) : List Intention → Except String (List (Option RankedResult))
  | [] => .ok []
  | i :: rest =>
      (scoreIntention sem hav queryEmbedding opts i).bind fun r =>
        (scoreAll sem hav queryEmbedding opts rest).bind fun rs => .ok (r :: rs)

/-- Embedding of `searchIntentions(query, intentions, options)`: embed the
query once (`gen`, the external capability), score every intention, drop
the `null`s and everything below `minScore`, sort descending by combined
score and truncate to `maxResults`. -/
def searchIntentions (gen : String → List ℚ)
    (sem : List ℚ → List ℚ → Except String ℚ)
    (hav : (ℚ × ℚ) → (ℚ × ℚ) → ℚ) (query : String)
    (intentions : List Intention) (opts : SearchOptions) :
    Except String (List RankedResult) :=
  (scoreAll sem hav (gen query) opts intentions).map fun results =>
    (((results.filterMap id).filter
        fun r => decide (opts.minScore ≤ r.score.combined)).mergeSort
      fun a b => decide (b.score.combined ≤ a.score.combined)).take opts.maxResults

/-- The stated relation between a result's combined, semantic and geo
scores: the weighted sum when both a caller location and the item geo are
present, the bare semantic score otherwise. -/
def combinedFormula (opts : SearchOptions) (r : RankedResult) : Prop :=
  r.score.combined =
    match opts.userLocation, r.intention.geo with
    | some _, some _ =>
        r.score.semantic * opts.semanticWeight + r.score.geo * opts.geoWeight
    | _, _ => r.score.semantic

/-! ### Concrete records used in counterexamples and witnesses -/

/-- A sample cached intention used in concrete counterexamples. -/
def sampleIntention : Intention :=
  { intentionId := "int_1_aaaaaaaaa"
    title := "Hello"
    description := "World"
    location := ""
    geo := none
    status := "active"
    createdBy := "did:key:sample"
    createdAt := 1
    updatedAt := 1
    tags := []
    category := "general"
    embedding := some [1]
    embeddedAt := some 5 }

/-- A 201-character title, one over the documented limit. -/
def longTitle : String := String.mk (List.replicate 201 'a')

/-- A 2001-character description, one over the documented limit. -/
def longDescription : String := String.mk (List.replicate 2001 'b')

/-- A create argument whose title is 201 characters long. -/
def overlongData : IntentionData := { title := some longTitle }

end SyncEngine

namespace SyncEngine

/-- The first accumulated squared norm is a sum of squares, hence
non-negative. -/
theorem normA_nonneg : ∀ (a b : List ℚ), 0 ≤ (dotNorms a b).2.1 := by
  intro a
  induction a with
  | nil => intro b; cases b <;> simp [dotNorms]
  | cons x xs ih =>
    intro b
    cases b with
    | nil => simp [dotNorms]
    | cons y ys =>
      simp only [dotNorms]
      have h1 := ih ys
      have h2 : 0 ≤ x * x := mul_self_nonneg x
      linarith

/-- The second accumulated squared norm is a sum of squares, hence
non-negative. -/
theorem normB_nonneg : ∀ (a b : List ℚ), 0 ≤ (dotNorms a b).2.2 := by
  intro a
  induction a with
  | nil => intro b; cases b <;> simp [dotNorms]
  | cons x xs ih =>
    intro b
    cases b with
    | nil => simp [dotNorms]
    | cons y ys =>
      simp only [dotNorms]
      have h1 := ih ys
      have h2 : 0 ≤ y * y := mul_self_nonneg y
      linarith

/-- A zero squared norm forces every component, and hence the dot product
against any other vector, to vanish: the accumulated `normA` is a sum of
squares. -/
theorem dot_eq_zero_of_normA_eq_zero :
    ∀ (a b : List ℚ), (dotNorms a b).2.1 = 0 → (dotNorms a b).1 = 0 := by
  intro a
  induction a with
  | nil => intro b h; cases b <;> simp [dotNorms]
  | cons x xs ih =>
    intro b h
    cases b with
    | nil => simp [dotNorms]
    | cons y ys =>
      simp only [dotNorms] at h ⊢
      have hx2 : 0 ≤ x * x := mul_self_nonneg x
      have hrest : 0 ≤ (dotNorms xs ys).2.1 := normA_nonneg xs ys
      have hx : x * x = 0 := by linarith
      have hn : (dotNorms xs ys).2.1 = 0 := by linarith
      have hx0 : x = 0 := mul_self_eq_zero.mp hx
      rw [ih ys hn, hx0]
      ring

/-- Symmetric fact for the second squared norm. -/
theorem dot_eq_zero_of_normB_eq_zero :
    ∀ (a b : List ℚ), (dotNorms a b).2.2 = 0 → (dotNorms a b).1 = 0 := by
  intro a
  induction a with
  | nil => intro b h; cases b <;> simp [dotNorms]
  | cons x xs ih =>
    intro b h
    cases b with
    | nil => simp [dotNorms]
    | cons y ys =>
      simp only [dotNorms] at h ⊢
      have hy2 : 0 ≤ y * y := mul_self_nonneg y
      have hrest : 0 ≤ (dotNorms xs ys).2.2 := normB_nonneg xs ys
      have hy : y * y = 0 := by linarith
      have hn : (dotNorms xs ys).2.2 = 0 := by linarith
      have hy0 : y = 0 := mul_self_eq_zero.mp hy
      rw [ih ys hn, hy0]
      ring

/-- C8: `cosineSimilarity` divides by the product of the two norms with no
zero-norm guard, so whenever either input vector has zero norm the
division is `0/0` and the similarity is NaN (`CosValue.nan`) — not the
finite score `0`; no special case intervenes on the ranking path, which
feeds this value straight into `semanticScore`. -/
theorem cosineSimilarity_zero_norm_nan (vecA vecB : List ℚ)
    (hlen : vecA.length = vecB.length)
    (hzero : (dotNorms vecA vecB).2.1 = 0 ∨ (dotNorms vecA vecB).2.2 = 0) :
    cosineSimilarity vecA vecB = .ok CosValue.nan ∧
      ∀ d na nb, cosineSimilarity vecA vecB ≠ .ok (CosValue.fin d na nb) := by
  have hdot : (dotNorms vecA vecB).1 = 0 := by
    cases hzero with
    | inl h => exact dot_eq_zero_of_normA_eq_zero vecA vecB h
    | inr h => exact dot_eq_zero_of_normB_eq_zero vecA vecB h
  constructor
  · simp only [cosineSimilarity, hlen, ne_eq, not_true_eq_false, if_false]
    rw [if_pos hzero, if_pos hdot]
  · intro d na nb
    simp only [cosineSimilarity, hlen, ne_eq, not_true_eq_false, if_false]
    rw [if_pos hzero, if_pos hdot]
    simp

/-- Witness for C8: the zero vector against `[1, 2]` yields NaN. -/
theorem cosineSimilarity_zero_norm_nan_witness :
    cosineSimilarity [0, 0] [1, 2] = .ok CosValue.nan :=
  (cosineSimilarity_zero_norm_nan [0, 0] [1, 2] (by decide)
    (Or.inl (by norm_num [dotNorms]))).1

/-- C7: with the default `maxDistanceKm = 100`, `normalizeGeoScore` equals
`max(0, 1 - distance/100)`; it is `1` at distance `0`, `0` at any distance
of at least `100` km and at the infinite distance `geoDistance` reports
when a geo point is absent, and it is monotonically non-increasing in the
distance. -/
theorem normalizeGeoScore_spec :
    (∀ d : ℚ, normalizeGeoScore (some d) 100 = max 0 (1 - d / 100)) ∧
    normalizeGeoScore (some 0) 100 = 1 ∧
    (∀ d : ℚ, 100 ≤ d → normalizeGeoScore (some d) 100 = 0) ∧
    normalizeGeoScore none 100 = 0 ∧
    (∀ hav g, normalizeGeoScore (geoDistance hav none g) 100 = 0 ∧
              normalizeGeoScore (geoDistance hav g none) 100 = 0) ∧
    (∀ d₁ d₂ : ℚ, d₁ ≤ d₂ →
        normalizeGeoScore (some d₂) 100 ≤ normalizeGeoScore (some d₁) 100) := by
  refine ⟨fun d => rfl, by norm_num [normalizeGeoScore], ?_, rfl, ?_, ?_⟩
  · intro d hd
    simp only [normalizeGeoScore]
    have : 1 - d / 100 ≤ 0 := by linarith
    exact max_eq_left this
  · intro hav g
    constructor
    · cases g <;> rfl
    · cases g <;> rfl
  · intro d₁ d₂ h
    simp only [normalizeGeoScore]
    have : 1 - d₂ / 100 ≤ 1 - d₁ / 100 := by linarith
    exact max_le_max le_rfl this

/-- Witness for C7 at distance 250 km (and its monotonicity at 50 ≤ 250). -/
theorem normalizeGeoScore_spec_witness :
    normalizeGeoScore (some 250) 100 = 0 ∧
      normalizeGeoScore (some 250) 100 ≤ normalizeGeoScore (some 50) 100 := by
  refine ⟨normalizeGeoScore_spec.2.2.1 250 (by norm_num), ?_⟩
  exact normalizeGeoScore_spec.2.2.2.2.2 50 250 (by norm_num)

/-- C9: for a combined score in `[0, 1]` the display scale
`0.5 + score*0.5` lies in `[0.5, 1.0]`, the card width is
`round(baseWidth * scale)` and the card height is `round(width / 1.618)`. -/
theorem calculateCardDimensions_spec (score baseWidth : ℚ)
    (h0 : 0 ≤ score) (h1 : score ≤ 1) :
    (1/2 ≤ displayScale score ∧ displayScale score ≤ 1) ∧
    (calculateCardDimensions score baseWidth).width
        = round (baseWidth * displayScale score) ∧
    (calculateCardDimensions score baseWidth).height
        = round ((((calculateCardDimensions score baseWidth).width : ℚ)) / (1618/1000)) := by
  refine ⟨⟨?_, ?_⟩, rfl, rfl⟩
  · simp only [displayScale]; linarith
  · simp only [displayScale]; linarith

/-- Witness for C9 at score `1/2` and base width `320`:
scale `0.75`, width `240`, height `round(240/1.618) = 148`. -/
theorem calculateCardDimensions_spec_witness :
    (1/2 ≤ displayScale (1/2) ∧ displayScale (1/2) ≤ 1) ∧
    (calculateCardDimensions (1/2) 320).width = round ((320 : ℚ) * displayScale (1/2)) ∧
    (calculateCardDimensions (1/2) 320).height
        = round ((((calculateCardDimensions (1/2) 320).width : ℚ)) / (1618/1000)) :=
  calculateCardDimensions_spec (1/2) 320 (by norm_num) (by norm_num)

/-- The boolean descending-`createdAt` comparator is transitive. -/
theorem descCreated_trans (a b c : Intention)
    (h₁ : decide (b.createdAt ≤ a.createdAt) = true)
    (h₂ : decide (c.createdAt ≤ b.createdAt) = true) :
    decide (c.createdAt ≤ a.createdAt) = true := by
  simp only [decide_eq_true_eq] at h₁ h₂ ⊢
  exact le_trans h₂ h₁

/-- The boolean descending-`createdAt` comparator is total. -/
theorem descCreated_total (a b : Intention) :
    (decide (b.createdAt ≤ a.createdAt) || decide (a.createdAt ≤ b.createdAt)) = true := by
  rcases Nat.le_total b.createdAt a.createdAt with h | h <;> simp [h]

/-- Sorting with the comparator yields a list in non-increasing
`createdAt` order. -/
theorem sortByCreatedAtDesc_sorted (l : List Intention) :
    (sortByCreatedAtDesc l).Pairwise (fun a b => b.createdAt ≤ a.createdAt) := by
  have h := @List.sorted_mergeSort Intention
    (fun a b : Intention => decide (b.createdAt ≤ a.createdAt))
    descCreated_trans descCreated_total l
  exact h.imp (fun hab => by simpa using hab)

/-- The sort permutes its input. -/
theorem sortByCreatedAtDesc_perm (l : List Intention) :
    (sortByCreatedAtDesc l).Perm l :=
  List.mergeSort_perm l _

/-- C10: both the store read (`loadIntentions`) and the cache read
(`loadIntentionsFromCache`) return the intentions newest-first — in
non-increasing `createdAt` order — whatever order the records were stored
in, and what they return is a permutation of what was stored. -/
theorem load_sorted_newest_first (dbPresent : Bool)
    (readResult : Except String (List Entry)) (isNewDatabase : Bool)
    (cache : List Intention) (entries : List Entry) :
    (loadIntentions dbPresent readResult isNewDatabase cache).1.Pairwise
        (fun a b => b.createdAt ≤ a.createdAt) ∧
    (loadIntentionsFromCache cache).Pairwise
        (fun a b => b.createdAt ≤ a.createdAt) ∧
    (loadIntentionsFromCache cache).Perm cache ∧
    (loadIntentions true (.ok entries) false cache).1.Perm
        (entries.map (·.value)) := by
  refine ⟨?_, sortByCreatedAtDesc_sorted cache, sortByCreatedAtDesc_perm cache, ?_⟩
  · cases dbPresent with
    | false => simp [loadIntentions]
    | true =>
      cases isNewDatabase with
      | true => simp [loadIntentions]
      | false =>
        cases readResult with
        | ok entries' => exact sortByCreatedAtDesc_sorted (entries'.map (·.value))
        | error e => simp [loadIntentions]
  · exact sortByCreatedAtDesc_perm (entries.map (·.value))

/-- Counterexample to C1: with a non-empty Local Cache and a failing
(timed-out) store read on a session that was not just created,
`loadIntentions` returns the empty list, not the last cache snapshot. -/
theorem loadIntentions_failure_returns_empty_not_cache :
    (loadIntentions true (.error "Database.all() timeout after 30 seconds")
        false [sampleIntention]).1 = [] ∧
    (loadIntentions true (.error "Database.all() timeout after 30 seconds")
        false [sampleIntention]).1
      ≠ loadIntentionsFromCache [sampleIntention] := by
  constructor
  · rfl
  · simp [loadIntentions, loadIntentionsFromCache, sortByCreatedAtDesc]

/-- C1 (amended): on a session that was not just created, a failing or
timed-out store read makes `loadIntentions` return the empty list — the
failure is not propagated and the cache is left unchanged — while any
successful read refreshes the cache with exactly what it returns. -/
theorem loadIntentions_failure_behaviour (e : String) (cache : List Intention) :
    loadIntentions true (.error e) false cache = ([], cache) ∧
    ∀ entries, (loadIntentions true (.ok entries) false cache).2
        = (loadIntentions true (.ok entries) false cache).1 := by
  exact ⟨rfl, fun _ => rfl⟩

/-- C3: a `create` call with a valid non-empty title succeeds whatever the
outcome of the replicated-store write: the fully-formed record (embedding
included) is returned, it was appended to the cache snapshot, the cache
write strictly precedes the store-write attempt in the effect trace, and
the record is retrievable from the cache afterwards. -/
theorem createIntention_best_effort (identityId : String)
    (intentionData : IntentionData) (cache : List Intention) (now : ℕ)
    (rand : String) (gen : String → List ℚ) (putOk : Bool)
    (t : String) (ht : intentionData.title = some t) (hvalid : jsTrim t ≠ "") :
    ∃ out, createIntention true identityId intentionData cache now rand gen putOk
        = .ok out
      ∧ out.effs = [.embed, .cacheWrite out.cache, .storePut putOk]
      ∧ out.cache = loadIntentionsFromCache cache ++ [out.record]
      ∧ out.record ∈ out.cache
      ∧ out.record ∈ loadIntentionsFromCache out.cache
      ∧ out.record.title = jsTrim t
      ∧ out.record.embedding
          = some (gen (out.record.title ++ " " ++ out.record.description))
      ∧ out.record.embeddedAt = some now := by
  have htr : truthyStr (intentionData.title.map (jsTrim ·)) = true := by
    rw [ht]
    simpa [truthyStr] using hvalid
  refine ⟨{ record := embedIntention gen now (createdRecord identityId intentionData now rand)
            cache := loadIntentionsFromCache cache
              ++ [embedIntention gen now (createdRecord identityId intentionData now rand)]
            effs := [.embed,
              .cacheWrite (loadIntentionsFromCache cache
                ++ [embedIntention gen now (createdRecord identityId intentionData now rand)]),
              .storePut putOk] },
    ?_, rfl, rfl, ?_, ?_, ?_, rfl, rfl⟩
  · unfold createIntention
    rw [htr]
    rfl
  · exact List.mem_append_right _ (List.mem_singleton.mpr rfl)
  · exact List.mem_mergeSort.mpr (List.mem_append_right _ (List.mem_singleton.mpr rfl))
  · show jsTrim (intentionData.title.getD "") = jsTrim t
    rw [ht]
    rfl

/-- Witness for C3: a concrete create whose store write times out. -/
theorem createIntention_best_effort_witness :
    ∃ out, createIntention true "did:key:sample"
        { title := some "I need help moving furniture",
          description := some "this saturday" }
        [] 7 "zzzzzzzzz" (fun _ => [1, 0]) false = .ok out
      ∧ out.effs = [.embed, .cacheWrite out.cache, .storePut false]
      ∧ out.cache = loadIntentionsFromCache [] ++ [out.record]
      ∧ out.record ∈ out.cache
      ∧ out.record ∈ loadIntentionsFromCache out.cache
      ∧ out.record.title = jsTrim "I need help moving furniture"
      ∧ out.record.embedding
          = some ((fun _ => [1, 0]) (out.record.title ++ " " ++ out.record.description))
      ∧ out.record.embeddedAt = some 7 :=
  createIntention_best_effort "did:key:sample" _ [] 7 "zzzzzzzzz" _ false
    "I need help moving furniture" rfl (by decide)

/-- Counterexample to C5: patching the title to the empty string changes
the title (JavaScript spreads `""` over the stored `"Hello"`) but the
truthiness test `updates.title || updates.description` is false, so the
embedding is not regenerated and `embeddedAt` keeps its old stamp `5`
instead of the update time `10`. -/
theorem updateIntention_empty_title_no_reembed :
    updateIntention [sampleIntention] "int_1_aaaaaaaaa" { title := some "" } 10
        (fun _ => [9]) (.ok ())
      = .ok { sampleIntention with title := "", updatedAt := 10 } ∧
    ({ sampleIntention with title := "", updatedAt := 10 } : Intention).title
      ≠ sampleIntention.title ∧
    ({ sampleIntention with title := "", updatedAt := 10 } : Intention).embeddedAt
      = some 5 ∧ (5 : ℕ) ≠ 10 := by
  refine ⟨rfl, by decide, rfl, by decide⟩

/-- C5 (amended): on an existing record, `update` regenerates the
embedding (and refreshes `embeddedAt`) exactly when the patch carries a
truthy — present and non-empty — title or description; otherwise (in
particular for the empty patch) the returned record keeps the stored
embedding and `embeddedAt` unchanged while `updatedAt` is bumped to the
current time. -/
theorem updateIntention_embedding_policy (store : List Intention)
    (intentionId : String) (updates : Patch) (now : ℕ) (gen : String → List ℚ)
    (first : Intention) (rest : List Intention)
    (hid : intentionId ≠ "")
    (hget : store.filter (fun i => i.intentionId = intentionId) = first :: rest) :
    ∃ r, updateIntention store intentionId updates now gen (.ok ()) = .ok r
      ∧ ((truthyStr updates.title || truthyStr updates.description) = true →
          r.embedding = some (gen (r.title ++ " " ++ r.description))
            ∧ r.embeddedAt = some now ∧ r.updatedAt = now)
      ∧ ((truthyStr updates.title || truthyStr updates.description) = false →
          r.embedding = first.embedding ∧ r.embeddedAt = first.embeddedAt
            ∧ r.updatedAt = now)
      ∧ (updates = {} → r = { first with updatedAt := now }) := by
  unfold updateIntention
  rw [if_neg hid, hget]
  cases htr : (truthyStr updates.title || truthyStr updates.description) with
  | true =>
    refine ⟨_, rfl, fun _ => ⟨rfl, rfl, rfl⟩, fun h => by simp [htr] at h, ?_⟩
    intro hpatch
    subst hpatch
    simp [truthyStr] at htr
  | false =>
    refine ⟨_, rfl, fun h => by simp [htr] at h, fun _ => ⟨rfl, rfl, rfl⟩, ?_⟩
    intro hpatch
    subst hpatch
    rfl

/-- C2: with both an invitation address and a remembered address present,
the orchestrator attempts the invitation (never the remembered address,
and never store creation); on success it persists the invitation address
as the new remembered address, clears the URL parameters and returns the
invitation-joined session; on failure it throws the peer-unreachable
error when peer hints were present and the discovery-timeout error
otherwise, leaving the remembered address untried. -/
theorem openIntentionsDatabase_invitation_priority (env : JoinEnv)
    (u s : String) (peerMultiaddrs : Option (List String))
    (libp2pAvailable : Bool) (r : JoinResult)
    (hr : openIntentionsDatabase env (some u) peerMultiaddrs (some s)
        libp2pAvailable = r) :
    (Attempt.openUrl ∈ r.attempts ∧ Attempt.openStored ∉ r.attempts
      ∧ Attempt.createNew ∉ r.attempts) ∧
    (env.openUrl = true →
        r.outcome = .ok { address := u, isNewDatabase := false,
                          isJoinedViaInvitation := true }
          ∧ r.remembered = some u ∧ r.urlCleared = true) ∧
    (env.openUrl = false →
        r.outcome = .error (if peersTruthy peerMultiaddrs then .peerUnreachable
                            else .discoveryTimeout)
          ∧ r.remembered = some s ∧ r.urlCleared = true) := by
  subst hr
  unfold openIntentionsDatabase
  cases hu : env.openUrl with
  | true =>
    refine ⟨⟨?_, ?_, ?_⟩, fun _ => ⟨?_, ?_, ?_⟩, fun h => ?_⟩
    · simp
    · cases htd : peersTruthy peerMultiaddrs && libp2pAvailable <;> simp [htd]
    · cases htd : peersTruthy peerMultiaddrs && libp2pAvailable <;> simp [htd]
    · simp
    · simp
    · simp
    · exact absurd h (by simp)
  | false =>
    refine ⟨⟨?_, ?_, ?_⟩, fun h => ?_, fun _ => ⟨?_, ?_, ?_⟩⟩
    · simp
    · cases htd : peersTruthy peerMultiaddrs && libp2pAvailable <;> simp [htd]
    · cases htd : peersTruthy peerMultiaddrs && libp2pAvailable <;> simp [htd]
    · exact absurd h (by simp)
    · simp
    · simp
    · simp

/-- Witness for C2: a failing invitation open with peer hints present
throws the peer-unreachable error and leaves the stored address untried. -/
theorem openIntentionsDatabase_invitation_priority_witness :
    (Attempt.openUrl ∈ (openIntentionsDatabase
        ⟨true, false, true, true, "new"⟩ (some "inviteAddr")
        (some ["peer1"]) (some "storedAddr") true).attempts
      ∧ Attempt.openStored ∉ (openIntentionsDatabase
        ⟨true, false, true, true, "new"⟩ (some "inviteAddr")
        (some ["peer1"]) (some "storedAddr") true).attempts
      ∧ Attempt.createNew ∉ (openIntentionsDatabase
        ⟨true, false, true, true, "new"⟩ (some "inviteAddr")
        (some ["peer1"]) (some "storedAddr") true).attempts) ∧
    ((openIntentionsDatabase ⟨true, false, true, true, "new"⟩
        (some "inviteAddr") (some ["peer1"]) (some "storedAddr") true).outcome
      = .error .peerUnreachable
      ∧ (openIntentionsDatabase ⟨true, false, true, true, "new"⟩
        (some "inviteAddr") (some ["peer1"]) (some "storedAddr") true).remembered
        = some "storedAddr") := by
  have h := openIntentionsDatabase_invitation_priority
    ⟨true, false, true, true, "new"⟩ "inviteAddr" "storedAddr"
    (some ["peer1"]) true _ rfl
  exact ⟨h.1, (h.2.2 rfl).1, (h.2.2 rfl).2.1⟩

/-- Trimming a repetition of a non-whitespace character changes nothing. -/
theorem jsTrim_replicate (n : ℕ) (c : Char) (hc : c.isWhitespace = false) :
    jsTrim (String.mk (List.replicate n c)) = String.mk (List.replicate n c) := by
  have h1 : (List.replicate n c).dropWhile Char.isWhitespace
      = List.replicate n c := by
    cases n with
    | zero => rfl
    | succ m => rw [List.replicate_succ, List.dropWhile_cons]; simp [hc]
  unfold jsTrim
  rw [h1, List.reverse_replicate, h1, List.reverse_replicate]

/-- The length of a repeated-character string is the repetition count. -/
theorem length_mk_replicate (n : ℕ) (c : Char) :
    (String.mk (List.replicate n c)).length = n := by
  show (List.replicate n c).length = n
  exact List.length_replicate n c

/-- A non-trivial repetition is a non-empty string. -/
theorem mk_replicate_ne_empty (n : ℕ) (hn : n ≠ 0) (c : Char) :
    String.mk (List.replicate n c) ≠ "" := by
  intro h
  have hlen := congrArg String.length h
  rw [length_mk_replicate] at hlen
  simp at hlen
  exact hn hlen

/-- Counterexample to C4: `createIntention` performs no length check —
a 201-character title sails through and the call succeeds, so overlong
fields are not rejected by `create` itself. -/
theorem createIntention_accepts_overlong_title :
    200 < longTitle.length ∧
    (createIntention true "did:key:sample" overlongData [] 0
        "rrrrrrrrr" (fun _ => [1]) true).isOk = true := by
  constructor
  · rw [longTitle, length_mk_replicate]
    norm_num
  · have htitle : overlongData.title = some longTitle := rfl
    have htr : truthyStr (overlongData.title.map (jsTrim ·)) = true := by
      rw [htitle, Option.map_some']
      simp only [truthyStr]
      rw [longTitle, jsTrim_replicate 201 'a' rfl]
      exact decide_eq_true (mk_replicate_ne_empty 201 (by norm_num) 'a')
    unfold createIntention
    rw [htr]
    rfl

/-- C4 (amended): `create` itself rejects only a missing or
empty-after-trim title, synchronously, before any embedding, cache or
store operation (the error branch precedes them all); the 200-character
title limit and 2000-character description limit are enforced by the
form's submit handler, which refuses to dispatch `create` at all. -/
theorem validation_layering :
    (∀ identityId intentionData cache now rand gen putOk,
        truthyStr (intentionData.title.map (jsTrim ·)) = false →
        createIntention true identityId intentionData cache now rand gen putOk
          = .error "Intention title is required") ∧
    (∀ title description location category tags,
        jsTrim title ≠ "" → 200 < title.length →
        handleSubmit title description location category tags
          = .error "title too long (max 200 chars)") ∧
    (∀ title description location category tags,
        jsTrim title ≠ "" → title.length ≤ 200 → 2000 < description.length →
        handleSubmit title description location category tags
          = .error "description too long (max 2000 chars)") := by
  refine ⟨?_, ?_, ?_⟩
  · intro identityId intentionData cache now rand gen putOk h
    unfold createIntention
    rw [h]
    rfl
  · intro title description location category tags h1 h2
    unfold handleSubmit
    rw [if_neg h1, if_pos h2]
  · intro title description location category tags h1 h2 h3
    unfold handleSubmit
    rw [if_neg h1, if_neg (by omega : ¬ 200 < title.length), if_pos h3]

/-- Witness for C4: a whitespace title is rejected by `create`; the long
title and long description are rejected by the form handler. -/
theorem validation_layering_witness :
    createIntention true "did:key:sample" { title := some "   " } [] 0
        "rrrrrrrrr" (fun _ => [1]) true = .error "Intention title is required" ∧
    handleSubmit longTitle "d" "loc" "general" ""
      = .error "title too long (max 200 chars)" ∧
    handleSubmit "ok title" longDescription "loc" "general" ""
      = .error "description too long (max 2000 chars)" := by
  have hne : jsTrim longTitle ≠ "" := by
    rw [longTitle, jsTrim_replicate 201 'a' rfl]
    exact mk_replicate_ne_empty 201 (by norm_num) 'a'
  have hlt : 200 < longTitle.length := by
    rw [longTitle, length_mk_replicate]
    norm_num
  have hld : 2000 < longDescription.length := by
    rw [longDescription, length_mk_replicate]
    norm_num
  exact ⟨validation_layering.1 _ _ _ _ _ _ _ (by decide),
    validation_layering.2.1 _ _ _ _ _ hne hlt,
    validation_layering.2.2 _ _ _ _ _ (by decide) (by decide) hld⟩

/-- What `scoreIntention` guarantees about a non-skipped result: it wraps
the scored intention, which must have an embedding, and its combined
score follows the weighted formula. -/
theorem scoreIntention_ok_some (sem : List ℚ → List ℚ → Except String ℚ)
    (hav : (ℚ × ℚ) → (ℚ × ℚ) → ℚ) (qe : List ℚ) (opts : SearchOptions)
    (i : Intention) (r : RankedResult)
    (h : scoreIntention sem hav qe opts i = .ok (some r)) :
    r.intention = i ∧ r.intention.embedding ≠ none ∧ combinedFormula opts r := by
  unfold scoreIntention at h
  split at h
  · simp at h
  · rename_i emb heq
    cases hs : sem qe emb with
    | error e => rw [hs] at h; simp [Except.bind] at h
    | ok q =>
      rw [hs] at h
      simp only [Except.bind, Except.ok.injEq, Option.some.injEq] at h
      subst h
      refine ⟨rfl, by simp [heq], ?_⟩
      unfold combinedFormula
      rcases hu : opts.userLocation with _ | loc <;>
        rcases hg : i.geo with _ | g <;> simp [hu, hg]

/-- Every result that survives `scoreAll` satisfies the `scoreIntention`
guarantees. -/
theorem scoreAll_ok_forall (sem : List ℚ → List ℚ → Except String ℚ)
    (hav : (ℚ × ℚ) → (ℚ × ℚ) → ℚ) (qe : List ℚ) (opts : SearchOptions) :
    ∀ (l : List Intention) (results : List (Option RankedResult)),
      scoreAll sem hav qe opts l = .ok results →
      ∀ r : RankedResult, some r ∈ results →
        r.intention.embedding ≠ none ∧ combinedFormula opts r := by
  intro l
  induction l with
  | nil =>
    intro results h r hr
    simp only [scoreAll, Except.ok.injEq] at h
    subst h
    simp at hr
  | cons i rest ih =>
    intro results h r hr
    unfold scoreAll at h
    cases hsi : scoreIntention sem hav qe opts i with
    | error e => rw [hsi] at h; simp [Except.bind] at h
    | ok hd =>
      rw [hsi] at h
      cases hsr : scoreAll sem hav qe opts rest with
      | error e => rw [hsr] at h; simp [Except.bind] at h
      | ok tl =>
        rw [hsr] at h
        simp only [Except.bind, Except.ok.injEq] at h
        subst h
        rcases List.mem_cons.mp hr with heq | hmem
        · have := scoreIntention_ok_some sem hav qe opts i r (heq ▸ hsi)
          exact ⟨this.2.1, this.2.2⟩
        · exact ih tl hsr r hmem

/-- If the similarity function succeeds on every embedding present in the
list, `scoreAll` succeeds: items lacking an embedding are skipped, not
errors. -/
theorem scoreAll_isOk (sem : List ℚ → List ℚ → Except String ℚ)
    (hav : (ℚ × ℚ) → (ℚ × ℚ) → ℚ) (qe : List ℚ) (opts : SearchOptions) :
    ∀ l : List Intention,
      (∀ i ∈ l, ∀ e, i.embedding = some e → (sem qe e).isOk = true) →
      (scoreAll sem hav qe opts l).isOk = true := by
  intro l
  induction l with
  | nil => intro _; rfl
  | cons i rest ih =>
    intro h
    have hi : (scoreIntention sem hav qe opts i).isOk = true := by
      unfold scoreIntention
      split
      · rfl
      · rename_i emb heq
        have hok := h i (List.mem_cons_self i rest) emb heq
        cases hs : sem qe emb with
        | error e => rw [hs] at hok; simp [Except.isOk, Except.toBool] at hok
        | ok q => rfl
    cases hsi : scoreIntention sem hav qe opts i with
    | error e => rw [hsi] at hi; simp [Except.isOk, Except.toBool] at hi
    | ok hd =>
      have hrest := ih (fun j hj => h j (List.mem_cons_of_mem i hj))
      cases hsr : scoreAll sem hav qe opts rest with
      | error e => rw [hsr] at hrest; simp [Except.isOk, Except.toBool] at hrest
      | ok tl =>
        unfold scoreAll
        rw [hsi, hsr]
        rfl

/-- The boolean descending-combined-score comparator is transitive. -/
theorem combinedDesc_trans (a b c : RankedResult)
    (h₁ : decide (b.score.combined ≤ a.score.combined) = true)
    (h₂ : decide (c.score.combined ≤ b.score.combined) = true) :
    decide (c.score.combined ≤ a.score.combined) = true := by
  simp only [decide_eq_true_eq] at h₁ h₂ ⊢
  exact le_trans h₂ h₁

/-- The boolean descending-combined-score comparator is total. -/
theorem combinedDesc_total (a b : RankedResult) :
    (decide (b.score.combined ≤ a.score.combined)
      || decide (a.score.combined ≤ b.score.combined)) = true := by
  rcases le_total b.score.combined a.score.combined with h | h <;> simp [h]

/-- C6: whenever `searchIntentions` returns a result list, the list holds
at most `maxResults` entries, is sorted in non-increasing combined-score
order, and every entry clears `minScore`, stems from an intention that
has an embedding, and carries the combined score
`semantic*semanticWeight + geo*geoWeight` when both a caller location and
the item geo are present and the bare semantic score otherwise; items
lacking an embedding are skipped without failing the search (it succeeds
whenever the similarity function succeeds on the embeddings present); and
the option defaults are `semanticWeight 0.7`, `geoWeight 0.3`,
`minScore 0.1`, `maxResults 50`. -/
theorem searchIntentions_spec (gen : String → List ℚ)
    (sem : List ℚ → List ℚ → Except String ℚ)
    (hav : (ℚ × ℚ) → (ℚ × ℚ) → ℚ) (query : String)
    (intentions : List Intention) (opts : SearchOptions) :
    (∀ rs, searchIntentions gen sem hav query intentions opts = .ok rs →
        rs.length ≤ opts.maxResults ∧
        rs.Pairwise (fun a b => b.score.combined ≤ a.score.combined) ∧
        ∀ r ∈ rs, opts.minScore ≤ r.score.combined ∧
          r.intention.embedding ≠ none ∧ combinedFormula opts r) ∧
    ((∀ i ∈ intentions, ∀ e, i.embedding = some e →
        (sem (gen query) e).isOk = true) →
      (searchIntentions gen sem hav query intentions opts).isOk = true) ∧
    (({} : SearchOptions).semanticWeight = 7/10 ∧
      ({} : SearchOptions).geoWeight = 3/10 ∧
      ({} : SearchOptions).minScore = 1/10 ∧
      ({} : SearchOptions).maxResults = 50) := by
  refine ⟨?_, ?_, rfl, rfl, rfl, rfl⟩
  · intro rs h
    unfold searchIntentions at h
    cases hall : scoreAll sem hav (gen query) opts intentions with
    | error e => rw [hall] at h; simp [Except.map] at h
    | ok results =>
      rw [hall] at h
      simp only [Except.map, Except.ok.injEq] at h
      subst h
      refine ⟨?_, ?_, ?_⟩
      · rw [List.length_take]
        exact min_le_left _ _
      · have hsorted := @List.sorted_mergeSort RankedResult
          (fun a b : RankedResult =>
            decide (b.score.combined ≤ a.score.combined))
          combinedDesc_trans combinedDesc_total
          ((results.filterMap id).filter
            fun r => decide (opts.minScore ≤ r.score.combined))
        have htake := List.Pairwise.sublist
          (List.take_sublist opts.maxResults _) hsorted
        exact htake.imp (fun hab => by simpa using hab)
      · intro r hr
        have hr1 : r ∈ ((results.filterMap id).filter
            fun r => decide (opts.minScore ≤ r.score.combined)).mergeSort
              (fun a b => decide (b.score.combined ≤ a.score.combined)) :=
          (List.take_sublist _ _).mem hr
        have hr2 := List.mem_mergeSort.mp hr1
        have hr3 := List.mem_filter.mp hr2
        have hmin : opts.minScore ≤ r.score.combined := by
          simpa using hr3.2
        obtain ⟨or, hor, hid⟩ := List.mem_filterMap.mp hr3.1
        have hor' : or = some r := by simpa using hid
        have hsome : some r ∈ results := hor' ▸ hor
        have := scoreAll_ok_forall sem hav (gen query) opts intentions results
          hall r hsome
        exact ⟨hmin, this.1, this.2⟩
  · intro h
    unfold searchIntentions
    cases hall : scoreAll sem hav (gen query) opts intentions with
    | error e =>
      exfalso
      have := scoreAll_isOk sem hav (gen query) opts intentions h
      rw [hall] at this
      simp [Except.isOk, Except.toBool] at this
    | ok results => rfl

/-- Witness for C6: a one-item search with a total similarity function
succeeds. -/
theorem searchIntentions_spec_witness :
    (searchIntentions (fun _ => [1]) (fun _ _ => .ok (1/2)) (fun _ _ => 0)
        "help moving" [sampleIntention] {}).isOk = true :=
  (searchIntentions_spec (fun _ => [1]) (fun _ _ => .ok (1/2)) (fun _ _ => 0)
      "help moving" [sampleIntention] {}).2.1 (fun _ _ _ _ => rfl)

/-- Witness for C5: updating `sampleIntention` with the empty patch keeps
embedding and `embeddedAt` and bumps `updatedAt` to 10. -/
theorem updateIntention_embedding_policy_witness :
    ∃ r, updateIntention [sampleIntention] "int_1_aaaaaaaaa" {} 10
        (fun _ => [9]) (.ok ()) = .ok r
      ∧ ((truthyStr ({} : Patch).title || truthyStr ({} : Patch).description) = true →
          r.embedding = some ((fun _ => ([9] : List ℚ)) (r.title ++ " " ++ r.description))
            ∧ r.embeddedAt = some 10 ∧ r.updatedAt = 10)
      ∧ ((truthyStr ({} : Patch).title || truthyStr ({} : Patch).description) = false →
          r.embedding = sampleIntention.embedding
            ∧ r.embeddedAt = sampleIntention.embeddedAt ∧ r.updatedAt = 10)
      ∧ (({} : Patch) = {} → r = { sampleIntention with updatedAt := 10 }) :=
  updateIntention_embedding_policy [sampleIntention] "int_1_aaaaaaaaa" {} 10
    (fun _ => [9]) sampleIntention [] (by decide) rfl

end SyncEngine
